import Mathlib

set_option maxHeartbeats 1000000

/-!
Shallow embedding of the authlite authorization library (src/lib.rs,
src/pwd.rs, src/key.rs, src/both.rs).

Modelling conventions:
* `SystemTime` instants are `Int` values; every operation that calls
  `SystemTime::now()` in the source takes the reading as an explicit
  `now : Int` argument.
* `Duration` values (the key lifetime) are `Nat` seconds.
* `HashMap` is an association list with HashMap-shaped primitives
  (`lookupK`, `insertK`, `updateK`, `removeK`); the real map never holds
  two entries for one key, which shows up here as `Nodup` hypotheses on
  the list of keys where a theorem needs it.
* Rust methods on `&mut self` become functions `State → ... → State × result`;
  methods on `&self` (`check_key`, `check_password`, `is_dirty`) are pure
  functions of the state, which is how the borrow checker renders their
  absence of side effects.
* File I/O: the CSV reader/writer is an external collaborator (spec section 6),
  so a persisted file is its record-level content, a list of records each
  either well-formed or malformed.  Failures of the platform file layer are
  injected through a `SaveEnv` of outcome flags: `openOk` for
  `open_for_write`, `writeOk` for the serialize/`write_record` calls,
  `flushOk` for the final `flush` in `KeyAuth::save`.
-/

/-- Logical data errors, from `DataError` in src/lib.rs. -/
inductive DataError
  | UserExists
  | NoSuchUser
  | BadPassword
  | KeyExpired
  | NoSuchKey
  | BadUsername
deriving DecidableEq

/-- Storage-level errors, from `FileError` in src/lib.rs.  Note that
`open_for_write` translates every create/open failure into
`FileError::Read`, as the source does. -/
inductive FileError
  | Exists (path : String)
  | DoesNotExist (path : String)
  | Write (msg : String)
  | Read (msg : String)
deriving DecidableEq

deriving instance DecidableEq for Except

/-- Modelled from the spec: the BLAKE3 digest type of the external hashing
collaborator (spec sections 2 and 6).  The core only ever compares digests for
equality and relies on determinism of the hash, so the digest is represented
abstractly by the pair of inputs that produced it. -/
structure Hash where
  digest : String × List Nat
deriving DecidableEq

/-- Modelled from the spec: `hash_with_salt` of src/pwd.rs calls the external
BLAKE3 collaborator on the password bytes followed by the salt bytes; the
contract the core needs is that identical inputs give identical digests. -/
def hash_with_salt (pwd : String) (salt : List Nat) : Hash :=
  ⟨(pwd, salt)⟩

/-- Association-list rendering of `HashMap::get`. -/
def lookupK {α : Type} : List (String × α) → String → Option α
  | [], _ => none
  | (k, v) :: rest, key => if k = key then some v else lookupK rest key

/-- Association-list rendering of `HashMap::contains_key`. -/
def containsK {α : Type} (m : List (String × α)) (key : String) : Bool :=
  (lookupK m key).isSome

/-- Association-list rendering of `HashMap::insert`: replace the entry in
place when the key is present, append otherwise. -/
def insertK {α : Type} : List (String × α) → String → α → List (String × α)
  | [], key, v => [(key, v)]
  | (k, w) :: rest, key, v =>
    if k = key then (key, v) :: rest else (k, w) :: insertK rest key v

/-- Association-list rendering of mutation through `HashMap::get_mut`:
replace the value of an existing entry, leave the map unchanged when the
key is absent. -/
def updateK {α : Type} : List (String × α) → String → α → List (String × α)
  | [], _, _ => []
  | (k, w) :: rest, key, v =>
    if k = key then (k, v) :: rest else (k, w) :: updateK rest key v

/-- Association-list rendering of `HashMap::remove`. -/
def removeK {α : Type} : List (String × α) → String → List (String × α)
  | [], _ => []
  | (k, w) :: rest, key =>
    if k = key then removeK rest key else (k, w) :: removeK rest key

/-! ## The credential store (src/pwd.rs) -/

/-- In-memory state of `PwdAuth`: the username-to-hash map, the backing
file path and the dirty flag. -/
structure PwdAuth where
  hashes : List (String × Hash)
  ufile : String
  udirty : Bool
deriving DecidableEq

/-- A record of the credential CSV file as the external record reader/writer
collaborator hands it to the core: either a well-formed (username, hash) row
or a malformed row (wrong field count or bad hex), which `open` skips with a
warning. -/
inductive PwdRecord
  | malformed (msg : String)
  | good (uname : String) (h : Hash)
deriving DecidableEq

/-- Record-level content of a credential file. -/
abbrev PwdFile := List PwdRecord

/-- Outcome flags for the platform file layer during a save. -/
structure SaveEnv where
  openOk : Bool
  writeOk : Bool
  flushOk : Bool
deriving DecidableEq

/-- Rendering of `PwdAuth::open` (the successful-read case): fold the file's
records into a fresh map, skipping malformed rows and letting a duplicate
username overwrite the earlier entry, exactly as `HashMap::insert` does in
the source loop; the store starts not dirty. -/
def PwdAuth.openStore (path : String) (file : PwdFile) : PwdAuth :=
  { hashes := file.foldl (fun m r =>
      match r with
      | .malformed _ => m
      | .good uname h => insertK m uname h) []
    ufile := path
    udirty := false }

/-- Rendering of `PwdAuth::add_user`: refuse an existing username, otherwise
insert the salted hash and mark dirty. -/
def PwdAuth.add_user (a : PwdAuth) (uname password : String) (salt : List Nat) :
    PwdAuth × Except DataError Unit :=
  let h := hash_with_salt password salt
  if containsK a.hashes uname then (a, .error .UserExists)
  else ({ a with hashes := insertK a.hashes uname h, udirty := true }, .ok ())

/-- Rendering of `PwdAuth::change_password`: refuse an absent username,
otherwise overwrite the stored hash.  The source does not touch the dirty
flag on this path. -/
def PwdAuth.change_password (a : PwdAuth) (uname password : String) (salt : List Nat) :
    PwdAuth × Except DataError Unit :=
  let h := hash_with_salt password salt
  if containsK a.hashes uname then
    ({ a with hashes := insertK a.hashes uname h }, .ok ())
  else (a, .error .NoSuchUser)

/-- Rendering of `PwdAuth::check_password`: a `&self` method, hence a pure
function of the store. -/
def PwdAuth.check_password (a : PwdAuth) (uname password : String) (salt : List Nat) :
    Except DataError Unit :=
  let h := hash_with_salt password salt
  match lookupK a.hashes uname with
  | none => .error .NoSuchUser
  | some stored => if stored = h then .ok () else .error .BadPassword

/-- Rendering of `PwdAuth::is_dirty`. -/
def PwdAuth.is_dirty (a : PwdAuth) : Bool :=
  a.udirty

/-- Record-level content `PwdAuth::save` writes on success: one well-formed
row per stored credential. -/
def pwdFileOf (a : PwdAuth) : PwdFile :=
  a.hashes.map fun p => PwdRecord.good p.1 p.2

/-- Rendering of `PwdAuth::save`: an `open_for_write` failure or a write
failure returns the error before the dirty flag is touched (the `&mut self`
state is then exactly the input state); on success every entry is written
and the dirty flag is cleared. -/
def PwdAuth.save (a : PwdAuth) (env : SaveEnv) : PwdAuth × Except FileError PwdFile :=
  if env.openOk = false then (a, .error (.Read a.ufile))
  else if env.writeOk = false then (a, .error (.Write a.ufile))
  else ({ a with udirty := false }, .ok (pwdFileOf a))

/-! ## The session-key store (src/key.rs) -/

/-- Value half of a key entry, from `KeyMeta` in src/key.rs. -/
structure KeyMeta where
  uname : String
  expiry : Int
deriving DecidableEq

/-- Constant `DEFAULT_KEY_LENGTH` of src/key.rs. -/
def DEFAULT_KEY_LENGTH : Nat := 32

/-- Constant `DEFAULT_KEY_CHARS` of src/key.rs. -/
def DEFAULT_KEY_CHARS : List Char :=
  "abcdefghijklmnopqrstuvwxyzABCDEFGHIJKLMNOPQRSTUVWXYZ0123456789/?:;[]\x7b\x7d|-_#^".toList

/-- Constant `DEFAULT_KEY_LIFE_SECS` of src/key.rs. -/
def DEFAULT_KEY_LIFE_SECS : Nat := 20 * 60

/-- Constant `ONE_YEAR` of src/key.rs, in seconds. -/
def ONE_YEAR : Int := 3600 * 24 * 364

/-- In-memory state of `KeyAuth`: the key-string-to-metadata map, backing
path, dirty flag, and the key length / character set / lifetime
configuration. -/
structure KeyAuth where
  keys : List (String × KeyMeta)
  kfile : String
  kdirty : Bool
  klen : Nat
  kchars : List Char
  klife : Nat
deriving DecidableEq

/-- A record of the key CSV file at the record-reader level: a well-formed
(key, uname, expiry) row or a malformed one. -/
inductive KeyRecord
  | malformed (msg : String)
  | good (key : String) (meta : KeyMeta)
deriving DecidableEq

/-- Record-level content of a key file. -/
abbrev KeyFile := List KeyRecord

/-- Rendering of `KeyAuth::open` (the successful-read case): taking one
clock reading `now` up front, fold the records into a fresh map, skipping
malformed rows and any row whose expiry is not strictly after `now`; the
store starts not dirty with the default configuration. -/
def KeyAuth.openStore (path : String) (file : KeyFile) (now : Int) : KeyAuth :=
  { keys := file.foldl (fun m r =>
      match r with
      | .malformed _ => m
      | .good key meta => if now < meta.expiry then insertK m key meta else m) []
    kfile := path
    kdirty := false
    klen := DEFAULT_KEY_LENGTH
    kchars := DEFAULT_KEY_CHARS
    klife := DEFAULT_KEY_LIFE_SECS }

/-- Rendering of `KeyAuth::issue_key` with the generated random key string
supplied by the caller (the random sampler is an external collaborator):
insert the key bound to `uname` expiring at `now` plus the configured
lifetime, and mark dirty. -/
def KeyAuth.issue_key (a : KeyAuth) (newKey uname : String) (now : Int) : KeyAuth :=
  { a with
    keys := insertK a.keys newKey ⟨uname, now + (a.klife : Int)⟩
    kdirty := true }

/-- Rendering of `KeyAuth::invalidate_key`: absent keys and already-expired
keys are refused with the state untouched; otherwise the entry's expiry is
moved one year before `now` and the store is marked dirty. -/
def KeyAuth.invalidate_key (a : KeyAuth) (key : String) (now : Int) :
    KeyAuth × Except DataError Unit :=
  match lookupK a.keys key with
  | none => (a, .error .NoSuchKey)
  | some kmeta =>
    if kmeta.expiry < now then (a, .error .KeyExpired)
    else
      ({ a with
          keys := updateK a.keys key { kmeta with expiry := now - ONE_YEAR }
          kdirty := true },
        .ok ())

/-- Rendering of `KeyAuth::remove_key`: delete the entry outright and mark
dirty; absent keys are refused. -/
def KeyAuth.remove_key (a : KeyAuth) (key : String) :
    KeyAuth × Except DataError Unit :=
  match lookupK a.keys key with
  | none => (a, .error .NoSuchKey)
  | some _ => ({ a with keys := removeK a.keys key, kdirty := true }, .ok ())

/-- Rendering of `KeyAuth::check_key`: a `&self` method, hence a pure
function of the store.  The username comparison comes before the expiry
comparison, as in the source. -/
def KeyAuth.check_key (a : KeyAuth) (key uname : String) (now : Int) :
    Except DataError Unit :=
  match lookupK a.keys key with
  | none => .error .NoSuchKey
  | some kmeta =>
    if kmeta.uname ≠ uname then .error .BadUsername
    else if kmeta.expiry < now then .error .KeyExpired
    else .ok ()

/-- Rendering of `KeyAuth::refresh_key`: an absent key is refused; otherwise
the entry's expiry is unconditionally reset to `now` plus the configured
lifetime, with no ownership or expiry test.  The source does not touch the
dirty flag on this path. -/
def KeyAuth.refresh_key (a : KeyAuth) (key : String) (now : Int) :
    KeyAuth × Except DataError Unit :=
  let newTime : Int := now + (a.klife : Int)
  match lookupK a.keys key with
  | none => (a, .error .NoSuchKey)
  | some kmeta =>
    ({ a with keys := updateK a.keys key { kmeta with expiry := newTime } }, .ok ())

/-- Rendering of `KeyAuth::check_and_refresh_key`: the `check_key` tests in
the same order, and only on success the expiry reset of `refresh_key`.  The
source does not touch the dirty flag on this path. -/
def KeyAuth.check_and_refresh_key (a : KeyAuth) (key uname : String) (now : Int) :
    KeyAuth × Except DataError Unit :=
  let newTime : Int := now + (a.klife : Int)
  match lookupK a.keys key with
  | none => (a, .error .NoSuchKey)
  | some kmeta =>
    if kmeta.uname ≠ uname then (a, .error .BadUsername)
    else if kmeta.expiry < now then (a, .error .KeyExpired)
    else
      ({ a with keys := updateK a.keys key { kmeta with expiry := newTime } }, .ok ())

/-- Local variable `to_remove` of `KeyAuth::cull_keys`: the keys of every
entry already expired against the one clock reading of the call. -/
def cullRemoveList (a : KeyAuth) (now : Int) : List String :=
  (a.keys.filter fun q => decide (q.2.expiry < now)).map Prod.fst

/-- Rendering of `KeyAuth::cull_keys`: collect, against one clock reading,
the keys of every expired entry, then remove them; the dirty flag is set
only when at least one key was collected. -/
def KeyAuth.cull_keys (a : KeyAuth) (now : Int) : KeyAuth :=
  if 0 < (cullRemoveList a now).length then
    { a with keys := (cullRemoveList a now).foldl removeK a.keys, kdirty := true }
  else a

/-- Rendering of `KeyAuth::is_dirty`. -/
def KeyAuth.is_dirty (a : KeyAuth) : Bool :=
  a.kdirty

/-- Record-level content `KeyAuth::save` writes on success: one well-formed
row per entry whose expiry is strictly after the save-time clock reading. -/
def keyFileOf (a : KeyAuth) (now : Int) : KeyFile :=
  (a.keys.filter fun p => decide (now < p.2.expiry)).map fun p =>
    KeyRecord.good p.1 p.2

/-- Rendering of `KeyAuth::save`: an open, serialize or flush failure
returns the error before the dirty flag is touched (the `&mut self` state is
then exactly the input state); on success the unexpired entries are written
and the dirty flag is cleared. -/
def KeyAuth.save (a : KeyAuth) (env : SaveEnv) (now : Int) :
    KeyAuth × Except FileError KeyFile :=
  if env.openOk = false then (a, .error (.Read a.kfile))
  else if env.writeOk = false then (a, .error (.Write a.kfile))
  else if env.flushOk = false then (a, .error (.Write a.kfile))
  else ({ a with kdirty := false }, .ok (keyFileOf a now))

/-! ## The combined store (src/both.rs) -/

/-- State of `BothAuth`: one credential store and one key store, owned
outright. -/
structure BothAuth where
  pwdauth : PwdAuth
  keyauth : KeyAuth
deriving DecidableEq

/-- Observable outcome of `BothAuth::save_if_dirty`: the final state, the
file contents actually written to each backing file (`none` when that store
was not saved), and the returned result. -/
structure SaveIfDirtyResult where
  state : BothAuth
  pwdWritten : Option PwdFile
  keyWritten : Option KeyFile
  res : Except FileError Unit
deriving DecidableEq

/-- Rendering of `BothAuth::save_if_dirty`: query the credential store's
dirty flag and save it if set, propagating a failure immediately via `?`;
then do the same for the key store. -/
def BothAuth.save_if_dirty (b : BothAuth) (penv kenv : SaveEnv) (now : Int) :
    SaveIfDirtyResult :=
  if b.pwdauth.is_dirty then
    match b.pwdauth.save penv with
    | (pa, .error e) => ⟨⟨pa, b.keyauth⟩, none, none, .error e⟩
    | (pa, .ok pf) =>
      if b.keyauth.is_dirty then
        match b.keyauth.save kenv now with
        | (ka, .error e) => ⟨⟨pa, ka⟩, some pf, none, .error e⟩
        | (ka, .ok kf) => ⟨⟨pa, ka⟩, some pf, some kf, .ok ()⟩
      else ⟨⟨pa, b.keyauth⟩, some pf, none, .ok ()⟩
  else
    if b.keyauth.is_dirty then
      match b.keyauth.save kenv now with
      | (ka, .error e) => ⟨⟨b.pwdauth, ka⟩, none, none, .error e⟩
      | (ka, .ok kf) => ⟨⟨b.pwdauth, ka⟩, none, some kf, .ok ()⟩
    else ⟨b, none, none, .ok ()⟩

/-! ## Lemmas about the map primitives -/

theorem lookupK_insertK_self {α : Type} (m : List (String × α)) (k : String) (v : α) :
    lookupK (insertK m k v) k = some v := by
  induction m with
  | nil => simp [insertK, lookupK]
  | cons hd tl ih =>
    obtain ⟨k', w⟩ := hd
    by_cases h : k' = k
    · simp [insertK, h, lookupK]
    · simp [insertK, h, lookupK, ih]

theorem lookupK_insertK_ne {α : Type} (m : List (String × α)) (k k' : String) (v : α)
    (h : k' ≠ k) :
    lookupK (insertK m k v) k' = lookupK m k' := by
  induction m with
  | nil => simp [insertK, lookupK, Ne.symm h]
  | cons hd tl ih =>
    obtain ⟨k0, w⟩ := hd
    by_cases h0 : k0 = k
    · subst h0
      simp [insertK, lookupK, Ne.symm h]
    · simp [insertK, h0, lookupK, ih]

theorem lookupK_updateK_self {α : Type} (m : List (String × α)) (k : String) (v : α) :
    lookupK (updateK m k v) k = (lookupK m k).map fun _ => v := by
  induction m with
  | nil => simp [updateK, lookupK]
  | cons hd tl ih =>
    obtain ⟨k0, w⟩ := hd
    by_cases h0 : k0 = k
    · subst h0
      simp [updateK, lookupK]
    · simp [updateK, h0, lookupK, ih]

theorem lookupK_updateK_ne {α : Type} (m : List (String × α)) (k k' : String) (v : α)
    (h : k' ≠ k) :
    lookupK (updateK m k v) k' = lookupK m k' := by
  induction m with
  | nil => simp [updateK]
  | cons hd tl ih =>
    obtain ⟨k0, w⟩ := hd
    by_cases h0 : k0 = k
    · subst h0
      simp [updateK, lookupK, Ne.symm h]
    · simp [updateK, h0, lookupK, ih]

theorem lookupK_removeK_self {α : Type} (m : List (String × α)) (k : String) :
    lookupK (removeK m k) k = none := by
  induction m with
  | nil => simp [removeK, lookupK]
  | cons hd tl ih =>
    obtain ⟨k0, w⟩ := hd
    by_cases h0 : k0 = k
    · simp [removeK, h0, ih]
    · simp [removeK, h0, lookupK, ih]

theorem lookupK_removeK_ne {α : Type} (m : List (String × α)) (k k' : String)
    (h : k' ≠ k) :
    lookupK (removeK m k) k' = lookupK m k' := by
  induction m with
  | nil => simp [removeK]
  | cons hd tl ih =>
    obtain ⟨k0, w⟩ := hd
    by_cases h0 : k0 = k
    · subst h0
      simp [removeK, lookupK, Ne.symm h, ih]
    · simp [removeK, h0, lookupK, ih]

theorem lookupK_eq_none_iff {α : Type} (m : List (String × α)) (k : String) :
    lookupK m k = none ↔ k ∉ m.map Prod.fst := by
  induction m with
  | nil => simp [lookupK]
  | cons hd tl ih =>
    obtain ⟨k0, w⟩ := hd
    by_cases h0 : k0 = k
    · subst h0
      simp [lookupK]
    · simp [lookupK, h0, ih, Ne.symm h0]

theorem lookupK_foldl_removeK {α : Type} (l : List String) (m : List (String × α))
    (k : String) :
    lookupK (l.foldl removeK m) k = if k ∈ l then none else lookupK m k := by
  induction l generalizing m with
  | nil => simp
  | cons a l ih =>
    by_cases hl : k ∈ l
    · simp [List.foldl_cons, ih, hl, List.mem_cons]
    · by_cases ha : k = a
      · subst ha
        simp [List.foldl_cons, ih, hl, lookupK_removeK_self]
      · simp [List.foldl_cons, ih, hl, ha, lookupK_removeK_ne _ _ _ ha]

theorem mem_filter_map_fst {α : Type} (m : List (String × α)) (p : String × α → Bool)
    (k : String) (hnd : (m.map Prod.fst).Nodup) :
    k ∈ (m.filter p).map Prod.fst ↔ ∃ v, lookupK m k = some v ∧ p (k, v) = true := by
  induction m with
  | nil => simp [lookupK]
  | cons hd tl ih =>
    obtain ⟨k0, w⟩ := hd
    simp only [List.map_cons, List.nodup_cons] at hnd
    obtain ⟨hk0, hndtl⟩ := hnd
    by_cases h0 : k0 = k
    · subst h0
      have htl : lookupK tl k0 = none := (lookupK_eq_none_iff tl k0).mpr hk0
      by_cases hp : p (k0, w) = true
      · simp [List.filter_cons, hp, lookupK, ih hndtl, htl]
      · simp only [Bool.not_eq_true] at hp
        simp [List.filter_cons, hp, lookupK, ih hndtl, htl]
    · by_cases hp : p (k0, w) = true
      · simp [List.filter_cons, hp, lookupK, h0, ih hndtl, Ne.symm h0]
      · simp only [Bool.not_eq_true] at hp
        simp [List.filter_cons, hp, lookupK, h0, ih hndtl]

theorem lookupK_filter {α : Type} (m : List (String × α)) (p : String × α → Bool)
    (k : String) (hnd : (m.map Prod.fst).Nodup) :
    lookupK (m.filter p) k =
      match lookupK m k with
      | some v => if p (k, v) then some v else none
      | none => none := by
  induction m with
  | nil => simp [lookupK]
  | cons hd tl ih =>
    obtain ⟨k0, w⟩ := hd
    simp only [List.map_cons, List.nodup_cons] at hnd
    obtain ⟨hk0, hndtl⟩ := hnd
    by_cases h0 : k0 = k
    · subst h0
      have htl : lookupK tl k0 = none := (lookupK_eq_none_iff tl k0).mpr hk0
      by_cases hp : p (k0, w) = true
      · simp [List.filter_cons, hp, lookupK]
      · simp only [Bool.not_eq_true] at hp
        simp [List.filter_cons, hp, lookupK, ih hndtl, htl]
    · by_cases hp : p (k0, w) = true
      · simp [List.filter_cons, hp, lookupK, h0, ih hndtl]
      · simp only [Bool.not_eq_true] at hp
        simp [List.filter_cons, hp, lookupK, h0, ih hndtl]

theorem lookupK_foldl_insertK {α : Type} (l acc : List (String × α)) (u : String)
    (hnd : (l.map Prod.fst).Nodup) :
    lookupK (l.foldl (fun m p => insertK m p.1 p.2) acc) u =
      match lookupK l u with
      | some v => some v
      | none => lookupK acc u := by
  induction l generalizing acc with
  | nil => simp [lookupK]
  | cons hd tl ih =>
    obtain ⟨k0, v0⟩ := hd
    simp only [List.map_cons, List.nodup_cons] at hnd
    obtain ⟨hk0, hndtl⟩ := hnd
    by_cases h0 : k0 = u
    · subst h0
      have htl : lookupK tl k0 = none := (lookupK_eq_none_iff tl k0).mpr hk0
      simp [List.foldl_cons, ih _ hndtl, lookupK, htl, lookupK_insertK_self]
    · simp only [List.foldl_cons]
      rw [ih _ hndtl]
      simp [lookupK, h0, lookupK_insertK_ne _ _ _ _ (Ne.symm h0)]

theorem mem_of_lookupK {α : Type} (m : List (String × α)) (k : String) (v : α)
    (h : lookupK m k = some v) : (k, v) ∈ m := by
  induction m with
  | nil => simp [lookupK] at h
  | cons hd tl ih =>
    obtain ⟨k0, w⟩ := hd
    by_cases h0 : k0 = k
    · subst h0
      simp [lookupK] at h
      simp [h]
    · simp [lookupK, h0] at h
      simp [ih h]

theorem pwd_open_foldl (l : List (String × Hash)) (acc : List (String × Hash)) :
    ((l.map fun q => PwdRecord.good q.1 q.2).foldl (fun m r =>
      match r with
      | .malformed _ => m
      | .good uname h => insertK m uname h) acc)
    = l.foldl (fun m q => insertK m q.1 q.2) acc := by
  induction l generalizing acc with
  | nil => rfl
  | cons hd tl ih => simp [ih]

theorem key_open_foldl (l : List (String × KeyMeta)) (acc : List (String × KeyMeta))
    (now : Int) :
    ((l.map fun q => KeyRecord.good q.1 q.2).foldl (fun m r =>
      match r with
      | .malformed _ => m
      | .good key meta => if now < meta.expiry then insertK m key meta else m) acc)
    = ((l.filter fun q => decide (now < q.2.expiry)).foldl
        (fun m q => insertK m q.1 q.2) acc) := by
  induction l generalizing acc with
  | nil => rfl
  | cons hd tl ih =>
    obtain ⟨k0, m0⟩ := hd
    by_cases h : now < m0.expiry
    · simp [List.filter_cons, h, ih]
    · simp [List.filter_cons, h, ih]

theorem pwd_save_error_state (a : PwdAuth) (env : SaveEnv) (e : FileError)
    (h : (a.save env).2 = .error e) : (a.save env).1 = a := by
  obtain ⟨o, w, fl⟩ := env
  cases o <;> cases w <;> simp_all [PwdAuth.save]

theorem key_save_error_state (a : KeyAuth) (env : SaveEnv) (now : Int) (e : FileError)
    (h : (a.save env now).2 = .error e) : (a.save env now).1 = a := by
  obtain ⟨o, w, fl⟩ := env
  cases o <;> cases w <;> cases fl <;> simp_all [KeyAuth.save]

/-! ## Concrete fixtures used by witnesses and counterexamples -/

/-- Small concrete credential store: one user. -/
def paEx : PwdAuth :=
  { hashes := [("ted", hash_with_salt "frogs" [1, 2])]
    ufile := "users.csv"
    udirty := false }

/-- Small concrete key store: one live key (expiry 5) and one expired key
(expiry 0). -/
def kaEx : KeyAuth :=
  { keys := [("kee", ⟨"ted", 5⟩), ("old", ⟨"ted", 0⟩)]
    kfile := "keys.csv"
    kdirty := false
    klen := DEFAULT_KEY_LENGTH
    kchars := DEFAULT_KEY_CHARS
    klife := DEFAULT_KEY_LIFE_SECS }

/-- File-layer environment in which every operation succeeds. -/
def envAll : SaveEnv := ⟨true, true, true⟩

/-! ## C1 -/

/-- C1: for every key store, key string and username, `check_key` returns
`NoSuchKey` when the key is absent from the store; otherwise `BadUsername`
when the stored owner differs from the queried username, tested before any
expiry comparison; otherwise `KeyExpired` when the expiry has passed; and
otherwise it succeeds.  `check_key` is a pure function of the store state
(`&self` with a read lock in the source), so the key map and the dirty flag
are left unchanged by construction. -/
theorem check_key_cases (a : KeyAuth) (key uname : String) (now : Int) :
    (lookupK a.keys key = none → a.check_key key uname now = .error .NoSuchKey) ∧
    (∀ m, lookupK a.keys key = some m → m.uname ≠ uname →
      a.check_key key uname now = .error .BadUsername) ∧
    (∀ m, lookupK a.keys key = some m → m.uname = uname → m.expiry < now →
      a.check_key key uname now = .error .KeyExpired) ∧
    (∀ m, lookupK a.keys key = some m → m.uname = uname → ¬(m.expiry < now) →
      a.check_key key uname now = .ok ()) := by
  refine ⟨?_, ?_, ?_, ?_⟩
  · intro h
    simp [KeyAuth.check_key, h]
  · intro m hm hu
    simp [KeyAuth.check_key, hm, hu]
  · intro m hm hu he
    simp [KeyAuth.check_key, hm, hu, he]
  · intro m hm hu he
    simp [KeyAuth.check_key, hm, hu, he]

/-- Witness for C1 at a concrete store: all four outcomes, the
`BadUsername` case exercised on an already-expired key to show the
username mismatch is reported before the expiry failure. -/
theorem check_key_cases_witness :
    kaEx.check_key "absent" "ted" 3 = .error .NoSuchKey ∧
    kaEx.check_key "old" "eve" 3 = .error .BadUsername ∧
    kaEx.check_key "old" "ted" 3 = .error .KeyExpired ∧
    kaEx.check_key "kee" "ted" 3 = .ok () :=
  ⟨(check_key_cases kaEx "absent" "ted" 3).1 (by decide),
   (check_key_cases kaEx "old" "eve" 3).2.1 ⟨"ted", 0⟩ (by decide) (by decide),
   (check_key_cases kaEx "old" "ted" 3).2.2.1 ⟨"ted", 0⟩ (by decide) rfl (by decide),
   (check_key_cases kaEx "kee" "ted" 3).2.2.2 ⟨"ted", 5⟩ (by decide) rfl (by decide)⟩

/-! ## C2 -/

/-- C2 counterexample: a key whose stored expiry equals the check-time
clock reading is accepted by `check_key`, although that expiry is not
strictly in the future, refuting the claim that such a key is not valid. -/
theorem check_key_boundary_counterexample :
    lookupK kaEx.keys "kee" = some ⟨"ted", 5⟩ ∧
    kaEx.check_key "kee" "ted" 5 = .ok () ∧
    ¬((5 : Int) > 5) :=
  ⟨by decide, by decide, by decide⟩

/-- C2 amended: for a key present in the store and owned by the queried
username, `check_key` succeeds if and only if the stored expiry has not
strictly passed the check-time clock reading (expiry at least `now`); in
particular a key whose expiry equals the instant of check is still
accepted. -/
theorem check_key_valid_iff (a : KeyAuth) (key uname : String) (now : Int)
    (m : KeyMeta) (hm : lookupK a.keys key = some m) (hu : m.uname = uname) :
    a.check_key key uname now = .ok () ↔ now ≤ m.expiry := by
  simp only [KeyAuth.check_key, hm, hu]
  rw [if_neg (by simp)]
  split
  · rename_i hlt
    simp only [show (Except.error DataError.KeyExpired = Except.ok ()) = False by simp,
      false_iff]
    omega
  · rename_i hlt
    simp only [show (Except.ok () = (Except.ok () : Except DataError Unit)) = True by simp,
      true_iff]
    omega

/-- Witness for the amended C2 at the boundary instant. -/
theorem check_key_valid_iff_witness :
    (kaEx.check_key "kee" "ted" 5 = .ok ()) ↔ (5 : Int) ≤ 5 :=
  check_key_valid_iff kaEx "kee" "ted" 5 ⟨"ted", 5⟩ (by decide) rfl

/-! ## C3 -/

/-- C3: a successful `change_password`, `refresh_key` or
`check_and_refresh_key` mutates the store state (the stored hash is
replaced, the expiry is reset to now plus the lifetime) yet leaves the
dirty flag exactly as it was before the call, while the structurally
similar successful mutators `add_user` and `invalidate_key` set the dirty
flag to true. -/
theorem mutators_dirty_asymmetry (pa : PwdAuth) (uname password : String)
    (salt : List Nat) (ka : KeyAuth) (key : String) (now : Int) :
    ((pa.change_password uname password salt).2 = .ok () →
      (pa.change_password uname password salt).1.udirty = pa.udirty ∧
      lookupK (pa.change_password uname password salt).1.hashes uname =
        some (hash_with_salt password salt)) ∧
    ((ka.refresh_key key now).2 = .ok () →
      (ka.refresh_key key now).1.kdirty = ka.kdirty ∧
      ∃ m, lookupK ka.keys key = some m ∧
        lookupK (ka.refresh_key key now).1.keys key =
          some ⟨m.uname, now + (ka.klife : Int)⟩) ∧
    ((ka.check_and_refresh_key key uname now).2 = .ok () →
      (ka.check_and_refresh_key key uname now).1.kdirty = ka.kdirty ∧
      ∃ m, lookupK ka.keys key = some m ∧
        lookupK (ka.check_and_refresh_key key uname now).1.keys key =
          some ⟨m.uname, now + (ka.klife : Int)⟩) ∧
    ((pa.add_user uname password salt).2 = .ok () →
      (pa.add_user uname password salt).1.udirty = true) ∧
    ((ka.invalidate_key key now).2 = .ok () →
      (ka.invalidate_key key now).1.kdirty = true) := by
  refine ⟨?_, ?_, ?_, ?_, ?_⟩
  · intro h
    by_cases hc : containsK pa.hashes uname
    · simp [PwdAuth.change_password, hc, lookupK_insertK_self]
    · simp [PwdAuth.change_password, hc] at h
  · intro h
    cases hm : lookupK ka.keys key with
    | none => simp [KeyAuth.refresh_key, hm] at h
    | some m =>
      exact ⟨by simp [KeyAuth.refresh_key, hm],
        m, rfl, by simp [KeyAuth.refresh_key, hm, lookupK_updateK_self]⟩
  · intro h
    cases hm : lookupK ka.keys key with
    | none => simp [KeyAuth.check_and_refresh_key, hm] at h
    | some m =>
      by_cases hu : m.uname ≠ uname
      · simp [KeyAuth.check_and_refresh_key, hm, hu] at h
      · by_cases he : m.expiry < now
        · simp [KeyAuth.check_and_refresh_key, hm, hu, he] at h
        · exact ⟨by simp [KeyAuth.check_and_refresh_key, hm, hu, he],
            m, rfl,
            by simp [KeyAuth.check_and_refresh_key, hm, hu, he, lookupK_updateK_self]⟩
  · intro h
    by_cases hc : containsK pa.hashes uname
    · simp [PwdAuth.add_user, hc] at h
    · simp [PwdAuth.add_user, hc]
  · intro h
    cases hm : lookupK ka.keys key with
    | none => simp [KeyAuth.invalidate_key, hm] at h
    | some m =>
      by_cases he : m.expiry < now
      · simp [KeyAuth.invalidate_key, hm, he] at h
      · simp [KeyAuth.invalidate_key, hm, he]

/-- Witness for C3 on concrete stores: each of the five implications fired
at an input where the operation succeeds. -/
theorem mutators_dirty_asymmetry_witness :
    ((paEx.change_password "ted" "newpw" [3]).1.udirty = paEx.udirty ∧
      lookupK (paEx.change_password "ted" "newpw" [3]).1.hashes "ted" =
        some (hash_with_salt "newpw" [3])) ∧
    (kaEx.refresh_key "old" 3).1.kdirty = kaEx.kdirty ∧
    (kaEx.check_and_refresh_key "kee" "ted" 3).1.kdirty = kaEx.kdirty ∧
    (paEx.add_user "new" "pw" []).1.udirty = true ∧
    (kaEx.invalidate_key "kee" 3).1.kdirty = true :=
  ⟨(mutators_dirty_asymmetry paEx "ted" "newpw" [3] kaEx "kee" 3).1 (by decide),
   ((mutators_dirty_asymmetry paEx "x" "x" [] kaEx "old" 3).2.1 (by decide)).1,
   ((mutators_dirty_asymmetry paEx "ted" "x" [] kaEx "kee" 3).2.2.1 (by decide)).1,
   (mutators_dirty_asymmetry paEx "new" "pw" [] kaEx "k" 0).2.2.2.1 (by decide),
   (mutators_dirty_asymmetry paEx "u" "p" [] kaEx "kee" 3).2.2.2.2 (by decide)⟩

/-! ## C6 -/

/-- C6: for every credential store, username, password and salt,
`check_password` returns `NoSuchUser` when the username is absent, returns
`BadPassword` when the hash of the presented password and salt differs
from the stored hash, and succeeds when they are equal.  `check_password`
is a pure function of the store state (`&self` with a read lock in the
source), so the credential map and the dirty flag are left unchanged by
construction. -/
theorem check_password_cases (a : PwdAuth) (uname password : String)
    (salt : List Nat) :
    (lookupK a.hashes uname = none →
      a.check_password uname password salt = .error .NoSuchUser) ∧
    (∀ stored, lookupK a.hashes uname = some stored →
      stored ≠ hash_with_salt password salt →
      a.check_password uname password salt = .error .BadPassword) ∧
    (∀ stored, lookupK a.hashes uname = some stored →
      stored = hash_with_salt password salt →
      a.check_password uname password salt = .ok ()) := by
  refine ⟨?_, ?_, ?_⟩
  · intro h
    simp [PwdAuth.check_password, h]
  · intro stored hs hne
    simp [PwdAuth.check_password, hs, hne]
  · intro stored hs he
    simp [PwdAuth.check_password, hs, he]

/-- Witness for C6 at a concrete store: absent user, wrong password and
matching password. -/
theorem check_password_cases_witness :
    paEx.check_password "ghost" "frogs" [1, 2] = .error .NoSuchUser ∧
    paEx.check_password "ted" "wrong" [1, 2] = .error .BadPassword ∧
    paEx.check_password "ted" "frogs" [1, 2] = .ok () :=
  ⟨(check_password_cases paEx "ghost" "frogs" [1, 2]).1 (by decide),
   (check_password_cases paEx "ted" "wrong" [1, 2]).2.1
     (hash_with_salt "frogs" [1, 2]) (by decide) (by decide),
   (check_password_cases paEx "ted" "frogs" [1, 2]).2.2
     (hash_with_salt "frogs" [1, 2]) (by decide) rfl⟩

/-! ## C7 -/

/-- C7: `invalidate_key` refuses an absent key with `NoSuchKey` and an
already-expired key with `KeyExpired`, in both cases returning the store
exactly as it was (entries and dirty flag untouched); on a live key it
succeeds, moves the entry's expiry one year into the past, sets the dirty
flag, and every subsequent `check_key` on that key with the owning
username fails with `KeyExpired`. -/
theorem invalidate_key_spec (a : KeyAuth) (key : String) (now : Int) :
    (lookupK a.keys key = none →
      a.invalidate_key key now = (a, .error .NoSuchKey)) ∧
    (∀ m, lookupK a.keys key = some m → m.expiry < now →
      a.invalidate_key key now = (a, .error .KeyExpired)) ∧
    (∀ m, lookupK a.keys key = some m → ¬(m.expiry < now) →
      (a.invalidate_key key now).2 = .ok () ∧
      (a.invalidate_key key now).1.kdirty = true ∧
      lookupK (a.invalidate_key key now).1.keys key =
        some ⟨m.uname, now - ONE_YEAR⟩ ∧
      ∀ now', now ≤ now' →
        (a.invalidate_key key now).1.check_key key m.uname now' =
          .error .KeyExpired) := by
  refine ⟨?_, ?_, ?_⟩
  · intro h
    simp [KeyAuth.invalidate_key, h]
  · intro m hm he
    simp [KeyAuth.invalidate_key, hm, he]
  · intro m hm he
    have hl : lookupK (a.invalidate_key key now).1.keys key =
        some ⟨m.uname, now - ONE_YEAR⟩ := by
      simp [KeyAuth.invalidate_key, hm, he, lookupK_updateK_self]
    refine ⟨by simp [KeyAuth.invalidate_key, hm, he],
      by simp [KeyAuth.invalidate_key, hm, he], hl, ?_⟩
    intro now' hn
    have hpast : now - ONE_YEAR < now' := by
      simp only [ONE_YEAR]
      omega
    simp [KeyAuth.check_key, hl, hpast]

/-- Witness for C7 on a concrete store: the two refusals leave the store
untouched, and a successful invalidation marks dirty and makes a later
check fail with `KeyExpired`. -/
theorem invalidate_key_spec_witness :
    kaEx.invalidate_key "absent" 3 = (kaEx, .error .NoSuchKey) ∧
    kaEx.invalidate_key "old" 3 = (kaEx, .error .KeyExpired) ∧
    (kaEx.invalidate_key "kee" 3).1.kdirty = true ∧
    (kaEx.invalidate_key "kee" 3).1.check_key "kee" "ted" 3 =
      .error .KeyExpired :=
  ⟨(invalidate_key_spec kaEx "absent" 3).1 (by decide),
   (invalidate_key_spec kaEx "old" 3).2.1 ⟨"ted", 0⟩ (by decide) (by decide),
   ((invalidate_key_spec kaEx "kee" 3).2.2 ⟨"ted", 5⟩ (by decide) (by decide)).2.1,
   ((invalidate_key_spec kaEx "kee" 3).2.2 ⟨"ted", 5⟩ (by decide) (by decide)).2.2.2
     3 (by decide)⟩

/-! ## C9 -/

/-- C9: `refresh_key` fails with `NoSuchKey` exactly when the key is absent;
for every present key — whatever its owner and even when its expiry has
already passed — it succeeds and unconditionally resets the expiry to now
plus the configured lifetime, so a subsequent `check_key` with the owning
username within the new lifetime succeeds (an expired key is resurrected). -/
theorem refresh_key_spec (a : KeyAuth) (key : String) (now : Int) :
    ((a.refresh_key key now).2 = .error .NoSuchKey ↔ lookupK a.keys key = none) ∧
    (∀ m, lookupK a.keys key = some m →
      (a.refresh_key key now).2 = .ok () ∧
      lookupK (a.refresh_key key now).1.keys key =
        some ⟨m.uname, now + (a.klife : Int)⟩ ∧
      ∀ now', now' ≤ now + (a.klife : Int) →
        (a.refresh_key key now).1.check_key key m.uname now' = .ok ()) := by
  constructor
  · cases hm : lookupK a.keys key with
    | none => simp [KeyAuth.refresh_key, hm]
    | some m => simp [KeyAuth.refresh_key, hm]
  · intro m hm
    have hl : lookupK (a.refresh_key key now).1.keys key =
        some ⟨m.uname, now + (a.klife : Int)⟩ := by
      simp [KeyAuth.refresh_key, hm, lookupK_updateK_self]
    refine ⟨by simp [KeyAuth.refresh_key, hm], hl, ?_⟩
    intro now' hn
    have hlive : ¬(now + (a.klife : Int) < now') := by omega
    simp [KeyAuth.check_key, hl, hlive]

/-- Witness for C9 on a concrete store: an absent key is the exact
`NoSuchKey` case, and refreshing the already-expired key resurrects it so
that an immediate check succeeds. -/
theorem refresh_key_spec_witness :
    (kaEx.refresh_key "absent" 3).2 = .error .NoSuchKey ∧
    (kaEx.refresh_key "old" 3).2 = .ok () ∧
    (kaEx.refresh_key "old" 3).1.check_key "old" "ted" 3 = .ok () :=
  ⟨(refresh_key_spec kaEx "absent" 3).1.mpr (by decide),
   ((refresh_key_spec kaEx "old" 3).2 ⟨"ted", 0⟩ (by decide)).1,
   ((refresh_key_spec kaEx "old" 3).2 ⟨"ted", 0⟩ (by decide)).2.2 3 (by decide)⟩

/-! ## C4 -/

/-- C4: for both stores, a successful `save` leaves the map as it was and
clears the dirty flag to false, while a failed `save` (open or write
failure) returns an error and leaves the whole store state — in particular
the dirty flag — exactly as it was before the call. -/
theorem save_dirty_contract (pa : PwdAuth) (ka : KeyAuth) (env kenv : SaveEnv)
    (now : Int) :
    (∀ f, (pa.save env).2 = .ok f → (pa.save env).1 = { pa with udirty := false }) ∧
    (∀ e, (pa.save env).2 = .error e → (pa.save env).1 = pa) ∧
    (∀ f, (ka.save kenv now).2 = .ok f →
      (ka.save kenv now).1 = { ka with kdirty := false }) ∧
    (∀ e, (ka.save kenv now).2 = .error e → (ka.save kenv now).1 = ka) := by
  refine ⟨?_, ?_, ?_, ?_⟩
  · intro f hf
    obtain ⟨o, w, fl⟩ := env
    cases o <;> cases w <;> simp_all [PwdAuth.save]
  · intro e he
    exact pwd_save_error_state pa env e he
  · intro f hf
    obtain ⟨o, w, fl⟩ := kenv
    cases o <;> cases w <;> cases fl <;> simp_all [KeyAuth.save]
  · intro e he
    exact key_save_error_state ka kenv now e he

/-- Witness for C4 on concrete stores: a successful save of each store
clears its dirty flag, and a save against a failing file layer leaves each
store exactly as it was. -/
theorem save_dirty_contract_witness :
    ({ paEx with udirty := true }.save envAll).1 = { paEx with udirty := false } ∧
    ({ paEx with udirty := true }.save ⟨false, true, true⟩).1 =
      { paEx with udirty := true } ∧
    ({ kaEx with kdirty := true }.save envAll 3).1 = { kaEx with kdirty := false } ∧
    ({ kaEx with kdirty := true }.save ⟨true, false, true⟩ 3).1 =
      { kaEx with kdirty := true } :=
  ⟨(save_dirty_contract { paEx with udirty := true } kaEx envAll envAll 3).1
      (pwdFileOf paEx) (by decide),
   (save_dirty_contract { paEx with udirty := true } kaEx ⟨false, true, true⟩ envAll 3).2.1
      (.Read "users.csv") (by decide),
   (save_dirty_contract paEx { kaEx with kdirty := true } envAll envAll 3).2.2.1
      (keyFileOf kaEx 3) (by decide),
   (save_dirty_contract paEx { kaEx with kdirty := true } envAll ⟨true, false, true⟩ 3).2.2.2
      (.Write "keys.csv") (by decide)⟩

/-! ## C10 -/

/-- C10: `save_if_dirty` saves the credential store first and only when its
dirty flag is set, then the key store only when its dirty flag is set; a
credential-store save failure is returned immediately with the key store
not saved and the whole state as before the call; when neither store is
dirty nothing is written and the call returns Ok. -/
theorem save_if_dirty_spec (b : BothAuth) (penv kenv : SaveEnv) (now : Int) :
    (b.pwdauth.udirty = false → b.keyauth.kdirty = false →
      b.save_if_dirty penv kenv now = ⟨b, none, none, .ok ()⟩) ∧
    (b.pwdauth.udirty = false →
      (b.save_if_dirty penv kenv now).pwdWritten = none ∧
      (b.save_if_dirty penv kenv now).state.pwdauth = b.pwdauth) ∧
    (b.keyauth.kdirty = false →
      (b.save_if_dirty penv kenv now).keyWritten = none ∧
      (b.save_if_dirty penv kenv now).state.keyauth = b.keyauth) ∧
    (∀ e, b.pwdauth.udirty = true → (b.pwdauth.save penv).2 = .error e →
      b.save_if_dirty penv kenv now = ⟨b, none, none, .error e⟩) := by
  refine ⟨?_, ?_, ?_, ?_⟩
  · intro hp hk
    simp [BothAuth.save_if_dirty, PwdAuth.is_dirty, KeyAuth.is_dirty, hp, hk]
  · intro hp
    by_cases hk : b.keyauth.kdirty
    · cases h1 : b.keyauth.save kenv now with
      | mk ka r =>
        cases r with
        | error e =>
          simp [BothAuth.save_if_dirty, PwdAuth.is_dirty, KeyAuth.is_dirty, hp, hk, h1]
        | ok kf =>
          simp [BothAuth.save_if_dirty, PwdAuth.is_dirty, KeyAuth.is_dirty, hp, hk, h1]
    · simp [BothAuth.save_if_dirty, PwdAuth.is_dirty, KeyAuth.is_dirty, hp, hk]
  · intro hk
    by_cases hp : b.pwdauth.udirty
    · cases h1 : b.pwdauth.save penv with
      | mk pa r =>
        cases r with
        | error e =>
          simp [BothAuth.save_if_dirty, PwdAuth.is_dirty, KeyAuth.is_dirty, hp, hk, h1]
        | ok pf =>
          simp [BothAuth.save_if_dirty, PwdAuth.is_dirty, KeyAuth.is_dirty, hp, hk, h1]
    · simp [BothAuth.save_if_dirty, PwdAuth.is_dirty, KeyAuth.is_dirty, hp, hk]
  · intro e hp he
    have hst : (b.pwdauth.save penv).1 = b.pwdauth :=
      pwd_save_error_state b.pwdauth penv e he
    cases h1 : b.pwdauth.save penv with
    | mk pa r =>
      rw [h1] at he hst
      simp only at he hst
      subst he
      subst hst
      simp [BothAuth.save_if_dirty, PwdAuth.is_dirty, hp, h1]

/-- Witness for C10 on concrete stores: a clean pair performs no save at
all, and a dirty credential store whose save fails returns the failure
with both stores untouched and the key store unsaved. -/
theorem save_if_dirty_spec_witness :
    (BothAuth.mk paEx kaEx).save_if_dirty envAll envAll 3 =
      ⟨⟨paEx, kaEx⟩, none, none, .ok ()⟩ ∧
    (BothAuth.mk { paEx with udirty := true }
        { kaEx with kdirty := true }).save_if_dirty ⟨false, true, true⟩ envAll 3 =
      ⟨⟨{ paEx with udirty := true }, { kaEx with kdirty := true }⟩,
        none, none, .error (.Read "users.csv")⟩ :=
  ⟨(save_if_dirty_spec ⟨paEx, kaEx⟩ envAll envAll 3).1 rfl rfl,
   (save_if_dirty_spec ⟨{ paEx with udirty := true }, { kaEx with kdirty := true }⟩
      ⟨false, true, true⟩ envAll 3).2.2.2 (.Read "users.csv") rfl (by decide)⟩

/-! ## C8 -/

/-- C8: `cull_keys` removes exactly the entries whose expiry has passed as
of the single clock reading taken during the call — every other entry keeps
its binding untouched — sets the dirty flag exactly when at least one entry
was removed (and leaves it unchanged otherwise), and afterwards `check_key`
on a culled key fails with `NoSuchKey`. -/
theorem cull_keys_spec (a : KeyAuth) (now : Int)
    (hnd : (a.keys.map Prod.fst).Nodup) :
    (∀ k, lookupK (a.cull_keys now).keys k =
      match lookupK a.keys k with
      | some m => if m.expiry < now then none else some m
      | none => none) ∧
    ((∃ q ∈ a.keys, q.2.expiry < now) → (a.cull_keys now).kdirty = true) ∧
    (¬(∃ q ∈ a.keys, q.2.expiry < now) → (a.cull_keys now).kdirty = a.kdirty) ∧
    (∀ k m uname now', lookupK a.keys k = some m → m.expiry < now →
      (a.cull_keys now).check_key k uname now' = .error .NoSuchKey) := by
  have hiff : (∃ q ∈ a.keys, q.2.expiry < now) ↔
      0 < (cullRemoveList a now).length := by
    simp only [cullRemoveList, List.length_map]
    rw [List.length_pos_iff_exists_mem]
    constructor
    · rintro ⟨q, hq, hlt⟩
      exact ⟨q, List.mem_filter.mpr ⟨hq, by simpa using hlt⟩⟩
    · rintro ⟨q, hq⟩
      have h2 := List.mem_filter.mp hq
      exact ⟨q, h2.1, by simpa using h2.2⟩
  have hmem : ∀ k, k ∈ cullRemoveList a now ↔
      ∃ v, lookupK a.keys k = some v ∧ v.expiry < now := by
    intro k
    simp only [cullRemoveList]
    rw [mem_filter_map_fst a.keys _ k hnd]
    constructor
    · rintro ⟨v, hv, hp⟩
      exact ⟨v, hv, by simpa using hp⟩
    · rintro ⟨v, hv, hp⟩
      exact ⟨v, hv, by simpa using hp⟩
  have hmain : ∀ k, lookupK (a.cull_keys now).keys k =
      match lookupK a.keys k with
      | some m => if m.expiry < now then none else some m
      | none => none := by
    intro k
    by_cases hrem : 0 < (cullRemoveList a now).length
    · simp only [KeyAuth.cull_keys, if_pos hrem]
      rw [lookupK_foldl_removeK]
      cases h : lookupK a.keys k with
      | none => simp
      | some m =>
        by_cases hlt : m.expiry < now
        · have hin : k ∈ cullRemoveList a now := (hmem k).mpr ⟨m, h, hlt⟩
          simp [hin, hlt]
        · have hnotin : k ∉ cullRemoveList a now := by
            rw [hmem k]
            rintro ⟨v, hv, hvlt⟩
            rw [h] at hv
            injection hv with hv2
            subst hv2
            exact hlt hvlt
          simp [hnotin, hlt]
    · simp only [KeyAuth.cull_keys, if_neg hrem]
      cases h : lookupK a.keys k with
      | none => simp
      | some m =>
        have hq : ¬(∃ q ∈ a.keys, q.2.expiry < now) := fun hex => hrem (hiff.mp hex)
        have hne : ¬(m.expiry < now) := by
          intro hlt
          exact hq ⟨(k, m), mem_of_lookupK a.keys k m h, hlt⟩
        simp [hne]
  refine ⟨hmain, ?_, ?_, ?_⟩
  · intro hex
    simp [KeyAuth.cull_keys, if_pos (hiff.mp hex)]
  · intro hne
    have h0 : ¬ 0 < (cullRemoveList a now).length := fun h => hne (hiff.mpr h)
    simp [KeyAuth.cull_keys, if_neg h0]
  · intro k m uname now' h hlt
    have hk := hmain k
    rw [h] at hk
    simp only [if_pos hlt] at hk
    simp [KeyAuth.check_key, hk]

/-- Witness for C8 on a concrete store: culling at an instant where exactly
the expired entry is removed marks the store dirty, makes a later check on
the culled key fail `NoSuchKey`, and leaves the live entry bound as
before. -/
theorem cull_keys_spec_witness :
    (kaEx.keys.map Prod.fst).Nodup ∧
    (kaEx.cull_keys 3).kdirty = true ∧
    (kaEx.cull_keys 3).check_key "old" "ted" 9 = .error .NoSuchKey ∧
    lookupK (kaEx.cull_keys 3).keys "kee" = some ⟨"ted", 5⟩ :=
  ⟨by decide,
   (cull_keys_spec kaEx 3 (by decide)).2.1 ⟨("old", ⟨"ted", 0⟩), by decide, by decide⟩,
   (cull_keys_spec kaEx 3 (by decide)).2.2.2 "old" ⟨"ted", 0⟩ "ted" 9
     (by decide) (by decide),
   by
     have hk := (cull_keys_spec kaEx 3 (by decide)).1 "kee"
     rw [show lookupK kaEx.keys "kee" = some ⟨"ted", 5⟩ from rfl] at hk
     simpa using hk⟩

/-! ## C5 -/

/-- Concrete key store for the C5 boundary counterexample: a single key
whose expiry coincides with the reopen instant. -/
def kaC5 : KeyAuth :=
  { keys := [("kee", ⟨"ted", 5⟩)]
    kfile := "keys.csv"
    kdirty := false
    klen := DEFAULT_KEY_LENGTH
    kchars := DEFAULT_KEY_CHARS
    klife := DEFAULT_KEY_LIFE_SECS }

/-- C5 counterexample: save at time 1 a store whose only key is unexpired
(expiry 5); the save writes the key, but reopening at time 5 drops it,
because `open` keeps only records whose expiry is strictly after the open
instant.  A check at time 6 then returns `KeyExpired` on the pre-save store
but `NoSuchKey` on the reopened store — different outcomes — although the
key's expiry instant 5 did not pass strictly between the save time 1 and
the reopen time 5. -/
theorem save_open_roundtrip_counterexample :
    (∀ q ∈ kaC5.keys, ¬(q.2.expiry < (1 : Int))) ∧
    (kaC5.save envAll 1).2 = .ok [KeyRecord.good "kee" ⟨"ted", 5⟩] ∧
    kaC5.check_key "kee" "ted" 6 = .error .KeyExpired ∧
    (KeyAuth.openStore "keys.csv" [KeyRecord.good "kee" ⟨"ted", 5⟩] 5).check_key
      "kee" "ted" 6 = .error .NoSuchKey ∧
    ¬((1 : Int) < 5 ∧ (5 : Int) < 5) :=
  ⟨by decide, by decide, by decide, by decide, by decide⟩

/-- C5 amended: for duplicate-free stores whose keys are all unexpired at
save time, saving at `t1` and reopening at `t2 ≥ t1` reproduces a store on
which every `check_password` call returns the same outcome as before the
save, and every `check_key` call returns the same outcome for keys whose
stored expiry is strictly after the reopen instant (and for absent keys),
while a stored key whose expiry is not strictly after the reopen instant is
missing from the reopened store, so `check_key` on it returns
`NoSuchKey`. -/
theorem save_open_roundtrip (pa : PwdAuth) (ka : KeyAuth) (t1 t2 : Int)
    (pf : PwdFile) (kf : KeyFile)
    (hndp : (pa.hashes.map Prod.fst).Nodup)
    (hndk : (ka.keys.map Prod.fst).Nodup)
    (hunexp : ∀ q ∈ ka.keys, ¬(q.2.expiry < t1))
    (ht : t1 ≤ t2)
    (hps : (pa.save envAll).2 = .ok pf)
    (hks : (ka.save envAll t1).2 = .ok kf) :
    (∀ uname password salt,
      (PwdAuth.openStore pa.ufile pf).check_password uname password salt =
        pa.check_password uname password salt) ∧
    (∀ key uname t3, (∀ m, lookupK ka.keys key = some m → t2 < m.expiry) →
      (KeyAuth.openStore ka.kfile kf t2).check_key key uname t3 =
        ka.check_key key uname t3) ∧
    (∀ key m, lookupK ka.keys key = some m → m.expiry ≤ t2 →
      ∀ uname t3,
        (KeyAuth.openStore ka.kfile kf t2).check_key key uname t3 =
          .error .NoSuchKey) := by
  have hpf : pf = pwdFileOf pa := by
    simp [PwdAuth.save, envAll] at hps
    exact hps.symm
  have hkf : kf = keyFileOf ka t1 := by
    simp [KeyAuth.save, envAll] at hks
    exact hks.symm
  subst hpf
  subst hkf
  have hlookp : ∀ u,
      lookupK (PwdAuth.openStore pa.ufile (pwdFileOf pa)).hashes u =
        lookupK pa.hashes u := by
    intro u
    simp only [PwdAuth.openStore, pwdFileOf]
    rw [pwd_open_foldl, lookupK_foldl_insertK _ _ _ hndp]
    cases h : lookupK pa.hashes u with
    | none => simp [lookupK]
    | some v => simp
  have hndk1 : ((ka.keys.filter fun q => decide (t1 < q.2.expiry)).map
      Prod.fst).Nodup :=
    List.Nodup.sublist (List.Sublist.map Prod.fst (List.filter_sublist _)) hndk
  have hndk2 : (((ka.keys.filter fun q => decide (t1 < q.2.expiry)).filter
      fun q => decide (t2 < q.2.expiry)).map Prod.fst).Nodup :=
    List.Nodup.sublist (List.Sublist.map Prod.fst (List.filter_sublist _)) hndk1
  have hlookk : ∀ k,
      lookupK (KeyAuth.openStore ka.kfile (keyFileOf ka t1) t2).keys k =
        match lookupK ka.keys k with
        | some m => if t2 < m.expiry then some m else none
        | none => none := by
    intro k
    simp only [KeyAuth.openStore, keyFileOf]
    rw [key_open_foldl, lookupK_foldl_insertK _ _ _ hndk2,
      lookupK_filter _ _ _ hndk1, lookupK_filter _ _ _ hndk]
    cases h : lookupK ka.keys k with
    | none => simp [lookupK]
    | some m =>
      by_cases h2 : t2 < m.expiry
      · have h1 : t1 < m.expiry := by omega
        simp [h1, h2]
      · by_cases h1 : t1 < m.expiry
        · simp [h1, h2, lookupK]
        · simp [h1, h2, lookupK]
  refine ⟨?_, ?_, ?_⟩
  · intro uname password salt
    simp only [PwdAuth.check_password, hlookp]
  · intro key uname t3 hcond
    cases h : lookupK ka.keys key with
    | none =>
      have hre : lookupK (KeyAuth.openStore ka.kfile (keyFileOf ka t1) t2).keys
          key = none := by
        rw [hlookk key, h]
      simp [KeyAuth.check_key, hre, h]
    | some m =>
      have h2 : t2 < m.expiry := hcond m h
      have hre : lookupK (KeyAuth.openStore ka.kfile (keyFileOf ka t1) t2).keys
          key = some m := by
        rw [hlookk key, h]
        simp [h2]
      simp [KeyAuth.check_key, hre, h]
  · intro key m h hle uname t3
    have hre : lookupK (KeyAuth.openStore ka.kfile (keyFileOf ka t1) t2).keys
        key = none := by
      rw [hlookk key, h]
      simp [show ¬(t2 < m.expiry) by omega]
    simp [KeyAuth.check_key, hre]

/-- Witness for the amended C5 on concrete stores: saving at time 1 and
reopening at time 3 preserves the password-check outcome and the key-check
outcome of the surviving key. -/
theorem save_open_roundtrip_witness :
    ((PwdAuth.openStore "users.csv" (pwdFileOf paEx)).check_password
        "ted" "frogs" [1, 2] = paEx.check_password "ted" "frogs" [1, 2]) ∧
    ((KeyAuth.openStore "keys.csv" (keyFileOf kaC5 1) 3).check_key
        "kee" "ted" 4 = kaC5.check_key "kee" "ted" 4) :=
  ⟨(save_open_roundtrip paEx kaC5 1 3 (pwdFileOf paEx) (keyFileOf kaC5 1)
      (by decide) (by decide) (by decide) (by decide) rfl rfl).1 "ted" "frogs" [1, 2],
   (save_open_roundtrip paEx kaC5 1 3 (pwdFileOf paEx) (keyFileOf kaC5 1)
      (by decide) (by decide) (by decide) (by decide) rfl rfl).2.1 "kee" "ted" 4
     (fun m hm => by
        rw [show lookupK kaC5.keys "kee" = some (⟨"ted", 5⟩ : KeyMeta) from rfl] at hm
        injection hm with h2
        subst h2
        decide)⟩
